import Mathlib

/-!
# webkit template: configuration loader and outbound call helper

A shallow embedding of `template/config/config.go` (`GetEnv`, `InitByEnv`) and
`template/util/util.go` (`CallApi`), with the properties of the specification
stated and proved over it.

Conventions of the embedding.

* Go `string` and `[]byte` values are Lean `String`s.
* A Go `error` result is an `Option`: `none` is `nil`.
* Behaviour that lives in the Go standard library or in third-party packages
  (`strconv`, `encoding/json`, `net/http`, `zlogger`, the random multipart
  boundary) is taken as a parameter of the embedded function; where a concrete
  instance is needed to evaluate an example, one is defined and documented.
-/

namespace Webkit

/-! ## Go values as seen by a type switch -/

/-- Dynamic (concrete) types that `GetEnv`'s type switch can meet.  `logLevel`
is gorm's `logger.LogLevel`, a defined type whose underlying type is `int`
(the type of `DBConf.LogLevel`, config.go line 106); `other` is any further
concrete type, identified by its name. -/
inductive Kind where
  | string
  | int
  | bool
  | float64
  | logLevel
  | other (name : String)
  deriving DecidableEq, Repr

/-- A Go value boxed in `any`: its dynamic type together with its content.
`F` is the carrier of `float64`, `O` the carrier of the values of all other
types; `nil` is the nil interface value, which has no dynamic type. -/
inductive GoVal (F O : Type) where
  | string (s : String)
  | int (n : Int)
  | bool (b : Bool)
  | float64 (x : F)
  | logLevel (n : Int)
  | other (name : String) (o : O)
  | nil
  deriving DecidableEq, Repr

/-- Dynamic type of a boxed value (`none` for the nil interface). -/
def GoVal.kind {F O : Type} : GoVal F O → Option Kind
  | .string _ => some .string
  | .int _ => some .int
  | .bool _ => some .bool
  | .float64 _ => some .float64
  | .logLevel _ => some .logLevel
  | .other name _ => some (.other name)
  | .nil => none

/-- The type argument `T` of a generic instantiation: a concrete type, or an
interface type described by the set of concrete types that implement it. -/
inductive GoType where
  | concrete (k : Kind)
  | iface (impl : Kind → Bool)

/-- Typing judgement `v : T`, i.e. `v` may be stored in a variable of type `T`. -/
def GoVal.hasType {F O : Type} (v : GoVal F O) : GoType → Bool
  | .concrete k => decide (v.kind = some k)
  | .iface impl =>
    match v.kind with
    | none => true
    | some k => impl k

/-- The panicking type assertion `any(v).(T)`: `none` is the run-time panic. -/
def assertType {F O : Type} (v : GoVal F O) : GoType → Option (GoVal F O)
  | .concrete k => if v.kind = some k then some v else none
  | .iface impl =>
    match v.kind with
    | none => none
    | some k => if impl k then some v else none

/-! ## The process environment and `strconv` -/

/-- The process environment: `os.LookupEnv`. -/
abbrev Env := String → Option String

/-- Go's `os.Getenv`: the value of the variable, or the empty string when the
variable is not present. -/
def Getenv (env : Env) (key : String) : String :=
  (env key).getD ""

/-- The three `strconv` parsers `GetEnv` calls; `none` stands for `err != nil`. -/
structure Strconv (F : Type) where
  Atoi : String → Option Int
  ParseBool : String → Option Bool
  ParseFloat : String → Option F

/-- Go's `strconv.ParseBool`: it accepts exactly 1, t, T, TRUE, true, True and
0, f, F, FALSE, false, False. -/
def ParseBool (str : String) : Option Bool :=
  if str = "1" ∨ str = "t" ∨ str = "T" ∨ str = "TRUE" ∨ str = "true" ∨ str = "True" then
    some true
  else if str = "0" ∨ str = "f" ∨ str = "F" ∨ str = "FALSE" ∨ str = "false" ∨ str = "False" then
    some false
  else
    none

/-- Decimal digits to a number, most significant first; `none` on a non-digit. -/
def parseDigits : List Char → Nat → Option Nat
  | [], acc => some acc
  | c :: cs, acc =>
    if 48 ≤ c.toNat ∧ c.toNat ≤ 57 then parseDigits cs (acc * 10 + (c.toNat - 48)) else none

/-- Go's `strconv.Atoi` on a 64-bit platform: an optional sign, at least one
decimal digit, and a value that fits `int`. -/
def Atoi (s : String) : Option Int :=
  match s.toList with
  | [] => none
  | c :: cs =>
    let digits := if c = '-' ∨ c = '+' then cs else c :: cs
    if digits = [] then none
    else
      match parseDigits digits 0 with
      | none => none
      | some n =>
        let v : Int := if c = '-' then -(n : Int) else (n : Int)
        if -(2 : Int) ^ 63 ≤ v ∧ v < (2 : Int) ^ 63 then some v else none

/-- The standard library's parsers, `ParseFloat` being supplied by the caller. -/
def goStrconv {F : Type} (parseFloat : String → Option F) : Strconv F :=
  { Atoi := Atoi, ParseBool := ParseBool, ParseFloat := parseFloat }

/-! ## config.go -/

/-- `GetEnv[T](key, defaultValue)` (config.go lines 53-85).  The result is
`none` when a type assertion panics and `some v` when the call returns `v`. -/
def GetEnv {F O : Type} (sc : Strconv F) (env : Env) (T : GoType) (key : String)
    (defaultValue : GoVal F O) : Option (GoVal F O) :=
  let valueStr := Getenv env key
  if valueStr = "" then some defaultValue
  else
    match defaultValue with
    | .string _ => assertType (.string valueStr) T
    | .int _ =>
      match sc.Atoi valueStr with
      | none => some defaultValue
      | some v => assertType (.int v) T
    | .bool _ =>
      match sc.ParseBool valueStr with
      | none => some defaultValue
      | some v => assertType (.bool v) T
    | .float64 _ =>
      match sc.ParseFloat valueStr with
      | none => some defaultValue
      | some v => assertType (.float64 v) T
    | _ => some defaultValue

/-- The content of a value of static type `string`. -/
def GoVal.asString {F O : Type} : GoVal F O → Option String
  | .string s => some s
  | _ => none

/-- The content of a value of static type `logger.LogLevel`. -/
def GoVal.asLogLevel {F O : Type} : GoVal F O → Option Int
  | .logLevel n => some n
  | _ => none

/-- `ServerConf` (config.go lines 94-96). -/
structure ServerConf where
  Port : String
  deriving DecidableEq, Repr

/-- `DBConf` (config.go lines 98-108); the field `Type` is spelled `Type_`.
`SlowQueryTime` is a `time.Duration` (nanoseconds), `LogLevel` the integer
behind `logger.LogLevel`. -/
structure DBConf where
  Type_ : String
  Conn : String
  MaxIdleConn : Int
  MaxOpenConn : Int
  MaxLifeTime : Int
  MaxIdleTime : Int
  SlowQueryTime : Int
  LogLevel : Int
  LogColorful : Bool
  deriving DecidableEq, Repr

/-- `Config` (config.go lines 87-92).  `Logger` and `Redis` are pointers:
`none` is the nil pointer and `some v` a pointer to the value `v`, so that two
`Logger` fields are equal when the option values they point to are equal. -/
structure Config (L R : Type) where
  Server : ServerConf
  Logger : Option L
  DB : DBConf
  Redis : Option R
  deriving DecidableEq, Repr

/-- gorm's `logger.Info`: the constants are `Silent = 1`, `Error = 2`,
`Warn = 3`, `Info = 4`, all of type `logger.LogLevel`. -/
def logger.Info : Int := 4

/-- `InitByEnv` (config.go lines 27-37), as a transformer of the global `Conf`
under the environment `env`.  `DefaultLog` is `zlogger.DefaultLog`, whose body
is outside this package: it yields the option value the returned pointer points
to.  `Info` is the constant `logger.Info`.  The result is `none` when one of
the `GetEnv` calls panics. -/
def InitByEnv {F L R : Type} (sc : Strconv F) (DefaultLog : Env → L) (Info : Int)
    (env : Env) (Conf : Config L R) : Option (Config L R) := do
  let port ← (GetEnv (O := Unit) sc env (.concrete .string) "SERVER_PORT"
    (.string ":3000")).bind GoVal.asString
  let Conf := { Conf with Server := { Port := port } }
  let type ← (GetEnv (O := Unit) sc env (.concrete .string) "DB_TYPE"
    (.string "pg")).bind GoVal.asString
  let conn ← (GetEnv (O := Unit) sc env (.concrete .string) "DB_CONN"
    (.string "host=127.0.0.1 port=5432 user=cella dbname=test password=111111")).bind
      GoVal.asString
  let logLevel ← (GetEnv (O := Unit) sc env (.concrete .logLevel) "DB_LOG_LEVEL"
    (.logLevel Info)).bind GoVal.asLogLevel
  let Conf := { Conf with
    DB := { Type_ := type, Conn := conn, MaxIdleConn := 0, MaxOpenConn := 0, MaxLifeTime := 0,
            MaxIdleTime := 0, SlowQueryTime := 0, LogLevel := logLevel, LogColorful := false } }
  let Conf := { Conf with Logger := some (DefaultLog env) }
  pure Conf

/-- The value a string setting receives: the variable if non-empty, else the default. -/
def envOr (env : Env) (key dflt : String) : String :=
  if Getenv env key = "" then dflt else Getenv env key

/-! ## util.go: the multipart writer of `mime/multipart` -/

/-- `CustomFileHeader` (util.go lines 37-42).  `OtherFields` is a Go map; it is
given by its entries in the order in which `range` visits them on this call. -/
structure CustomFileHeader where
  Filename : String
  FileBytes : String
  Size : Int
  OtherFields : List (String × String)
  deriving DecidableEq, Repr

/-- The line break of MIME headers. -/
def crlf : String := "\r\n"

/-- `escapeQuotes` of `mime/multipart`, the replacer applied to field and file
names: a backslash and a double quote each get a backslash in front, a carriage
return becomes `%0D` and a line feed `%0A`. -/
def escapeQuotes (s : String) : String :=
  String.mk (s.toList.flatMap fun c =>
    if c = Char.ofNat 92 ∨ c = Char.ofNat 34 then [Char.ofNat 92, c]
    else if c = Char.ofNat 13 then ['%', '0', 'D']
    else if c = Char.ofNat 10 then ['%', '0', 'A']
    else [c])

/-- State of a `multipart.Writer` that writes to a `bytes.Buffer`: the
boundary, the bytes written so far and whether a part has been created. -/
structure Writer where
  boundary : String
  buf : String
  lastpart : Bool
  deriving DecidableEq, Repr

/-- `multipart.NewWriter`; the boundary is the random one it draws. -/
def NewWriter (boundary : String) : Writer :=
  { boundary := boundary, buf := "", lastpart := false }

/-- `Writer.CreatePart`: the delimiter line (preceded by a line break when a
part came before), the header lines in the order given, and an empty line. -/
def Writer.CreatePart (w : Writer) (header : List (String × String)) : Writer :=
  let delim :=
    if w.lastpart then crlf ++ "--" ++ w.boundary ++ crlf else "--" ++ w.boundary ++ crlf
  let lines := String.join (header.map fun kv => kv.1 ++ ": " ++ kv.2 ++ crlf)
  { w with buf := w.buf ++ (delim ++ lines ++ crlf), lastpart := true }

/-- Writing to the part created last: the bytes go to the buffer as they are. -/
def Writer.Write (w : Writer) (p : String) : Writer :=
  { w with buf := w.buf ++ p }

/-- `Writer.CreateFormFile`: a part with a form-data disposition carrying the
field name and the file name, of content type `application/octet-stream`
(`CreatePart` emits the header keys sorted). -/
def Writer.CreateFormFile (w : Writer) (fieldname filename : String) : Writer :=
  w.CreatePart
    [("Content-Disposition",
        "form-data; name=\"" ++ escapeQuotes fieldname ++ "\"; filename=\""
          ++ escapeQuotes filename ++ "\""),
     ("Content-Type", "application/octet-stream")]

/-- `Writer.WriteField`: `CreateFormField` followed by a write of the value. -/
def Writer.WriteField (w : Writer) (fieldname value : String) : Writer :=
  (w.CreatePart
    [("Content-Disposition", "form-data; name=\"" ++ escapeQuotes fieldname ++ "\"")]).Write value

/-- `Writer.Close`: the closing delimiter. -/
def Writer.Close (w : Writer) : Writer :=
  { w with buf := w.buf ++ (crlf ++ "--" ++ w.boundary ++ "--" ++ crlf) }

/-- `Writer.FormDataContentType`: the boundary is quoted when it holds one of
the characters `()<>@,;:\"/[]?= `. -/
def Writer.FormDataContentType (w : Writer) : String :=
  let special : List Nat := [40, 41, 60, 62, 64, 44, 59, 58, 92, 34, 47, 91, 93, 63, 61, 32]
  let b :=
    if w.boundary.toList.any (fun c => decide (c.toNat ∈ special)) then
      "\"" ++ w.boundary ++ "\""
    else w.boundary
  "multipart/form-data; boundary=" ++ b

/-- The file-upload branch of `CallApi` (util.go lines 54-74): the content type
and the request body.  Every write goes to an in-memory buffer, whose `Write`
returns no error, so none of the `return err` of lines 58-69 is taken. -/
def multipartBody (boundary : String) (fileHeader : CustomFileHeader) : String × String :=
  let writer := NewWriter boundary
  let writer := writer.CreateFormFile "file" fileHeader.Filename
  let writer := writer.Write fileHeader.FileBytes
  let writer := fileHeader.OtherFields.foldl (fun w kv => w.WriteField kv.1 kv.2) writer
  let writer := writer.Close
  (writer.FormDataContentType, writer.buf)

/-! ### The multipart format, part by part -/

/-- One part of a multipart form: a text field (`filename = none`) or a file. -/
structure Part where
  name : String
  filename : Option String
  content : String
  deriving DecidableEq, Repr

/-- The file part of field name `name`. -/
def Part.file (name filename content : String) : Part :=
  { name := name, filename := some filename, content := content }

/-- The text field part `name = value`. -/
def Part.field (name value : String) : Part :=
  { name := name, filename := none, content := value }

/-- Header block and content of one part. -/
def Part.render (p : Part) : String :=
  let disposition := "Content-Disposition: form-data; name=\"" ++ escapeQuotes p.name ++ "\""
  match p.filename with
  | some f =>
    disposition ++ "; filename=\"" ++ escapeQuotes f ++ "\"" ++ crlf
      ++ "Content-Type: application/octet-stream" ++ crlf ++ crlf ++ p.content
  | none => disposition ++ crlf ++ crlf ++ p.content

/-- The parts after the first, each behind a delimiter line, then the closing
delimiter. -/
def encodeRest (boundary : String) : List Part → String
  | [] => crlf ++ "--" ++ boundary ++ "--" ++ crlf
  | p :: ps => crlf ++ "--" ++ boundary ++ crlf ++ p.render ++ encodeRest boundary ps

/-- The multipart encoding of a list of parts under a boundary: the parts in
order, each behind a delimiter line, and the closing delimiter. -/
def encodeParts (boundary : String) : List Part → String
  | [] => crlf ++ "--" ++ boundary ++ "--" ++ crlf
  | p :: ps => "--" ++ boundary ++ crlf ++ p.render ++ encodeRest boundary ps

/-! ## util.go: `CallApi` -/

/-- The argument `bodyParams interface{}` by dynamic type: a
`*CustomFileHeader` (`none` is the nil pointer of that type), a
`CustomFileHeader` passed by value, the nil interface, or a value of any other
type. -/
inductive Payload (V : Type) where
  | filePtr (p : Option CustomFileHeader)
  | fileValue (h : CustomFileHeader)
  | nil
  | value (v : V)

/-- `http.Header` with canonical keys, as a list of key/value pairs. -/
abbrev Header := List (String × String)

/-- `Header.Set`: the entry replaces every earlier one of the key. -/
def Header.Set (h : Header) (key value : String) : Header :=
  h.filter (fun kv => kv.1 != key) ++ [(key, value)]

/-- `Header.Get`: the value of the key, or the empty string. -/
def Header.Get (h : Header) (key : String) : String :=
  (h.lookup key).getD ""

/-- The `*http.Request` as far as `CallApi` determines it: the method, the text
of the URL (which `http.NewRequest` parses), the body and the headers. -/
structure Request where
  Method : String
  URL : String
  Body : String
  Header : Header
  deriving DecidableEq, Repr

/-- An `http.Response` as `CallApi` reads it; `Body` is the result of
`ioutil.ReadAll(resp.Body)`. -/
structure Response (E : Type) where
  Status : String
  StatusCode : Int
  Body : Except E String

/-- The library calls of `CallApi`, with errors of type `E`, payload values of
type `V` and result containers of type `R`. -/
structure HttpLib (V E R : Type) where
  /-- Boundary drawn by `multipart.NewWriter`. -/
  boundary : String
  /-- The function `json.Marshal`. -/
  Marshal : Payload V → Except E String
  /-- Error of `http.NewRequest`, if any: the method (the empty one already
  replaced by GET) is not a valid one, or the URL does not parse. -/
  NewRequestErr : String → String → Option E
  /-- The method `client.Do` of a client with the given timeout. -/
  Do : Int → Request → Except E (Response E)
  /-- The function `json.Unmarshal(body, &result)`: its error and the container afterwards. -/
  Unmarshal : String → R → Option E × R

/-- An `error` value `CallApi` returns: one a library call produced, handed
on as it is, or the one `fmt.Errorf` builds, given by its text. -/
inductive GoError (E : Type) where
  | lib (e : E)
  | errorf (text : String)
  deriving DecidableEq, Repr

/-- Progress of the code before the request is sent. -/
inductive Step (E α : Type) where
  | panic
  | err (e : E)
  | ok (a : α)

/-- How a call of `CallApi` ends: a run-time panic, or a return with an error
(`none` is `nil`) and the state of the result container. -/
inductive Outcome (E R : Type) where
  | panic
  | returned (err : Option (GoError E)) (result : R)

/-- Step 1 of `CallApi` (util.go lines 46-81): content type and request body.
Dereferencing a nil `*CustomFileHeader` at line 57 panics. -/
def prepareBody {V E R : Type} (lib : HttpLib V E R) (bodyParams : Payload V) :
    Step E (String × String) :=
  match bodyParams with
  | .filePtr none => .panic
  | .filePtr (some fileHeader) => .ok (multipartBody lib.boundary fileHeader)
  | other =>
    match lib.Marshal other with
    | .error e => .err e
    | .ok requestBody => .ok ("application/json", requestBody)

/-- `http.NewRequest(method, url, body)`: an empty method is replaced by GET,
then the method is validated and the URL parsed; the request made carries that
method, the URL, the body and no header yet. -/
def NewRequest {V E R : Type} (lib : HttpLib V E R) (method url body : String) :
    Except E Request :=
  let method := if method = "" then "GET" else method
  match lib.NewRequestErr method url with
  | some e => .error e
  | none => .ok { Method := method, URL := url, Body := body, Header := [] }

/-- Steps 1 to 3 of `CallApi` (util.go lines 46-93): the request handed to
`client.Do`. -/
def buildRequest {V E R : Type} (lib : HttpLib V E R) (api method : String)
    (bodyParams : Payload V) : Step E Request :=
  match prepareBody lib bodyParams with
  | .panic => .panic
  | .err e => .err e
  | .ok (contentType, requestBody) =>
    match NewRequest lib method api requestBody with
    | .error e => .err e
    | .ok httpReq =>
      let httpReq := { httpReq with Header := httpReq.Header.Set "Content-Type" contentType }
      let httpReq := { httpReq with Header := httpReq.Header.Set "Accept" "application/json" }
      .ok httpReq

/-- `CallApi` (util.go lines 44-113). -/
def CallApi {V E R : Type} (lib : HttpLib V E R) (api method : String) (timeout : Int)
    (bodyParams : Payload V) (result : R) : Outcome E R :=
  match buildRequest lib api method bodyParams with
  | .panic => .panic
  | .err e => .returned (some (.lib e)) result
  | .ok httpReq =>
    match lib.Do timeout httpReq with
    | .error e => .returned (some (.lib e)) result
    | .ok resp =>
      match resp.Body with
      | .error e => .returned (some (.lib e)) result
      | .ok body =>
        if resp.StatusCode ≠ 200 then
          .returned (some (.errorf ("CoreServer error: " ++ resp.Status ++ " " ++ body))) result
        else
          match lib.Unmarshal body result with
          | (some e, result) => .returned (some (.lib e)) result
          | (none, result) => .returned none result

/-! ## Concrete data for evaluating the definitions -/

/-- A stand-in for `strconv.ParseFloat(s, 64)` on whole numbers: `float64`
values are integers and the accepted texts are those of `Atoi`.  It serves only
to evaluate examples; the theorems hold for every `ParseFloat`. -/
def wholeParseFloat (s : String) : Option Int := Atoi s

/-- The standard parsers with `wholeParseFloat`. -/
def exampleStrconv : Strconv Int := goStrconv wholeParseFloat

/-- An environment with one variable per case of `GetEnv`. -/
def exampleEnv : Env := fun key =>
  if key = "SERVER_PORT" then some " :8080 "
  else if key = "DB_LOG_LEVEL" then some "2"
  else if key = "WORKERS" then some "12"
  else if key = "DEBUG" then some "TRUE"
  else if key = "RATE" then some "3"
  else if key = "EMPTY" then some ""
  else if key = "JUNK" then some "12abc"
  else none

/-- A `Conf` as `InitByFile` could have left it. -/
def exampleConf (redis : Option String) : Config Unit String :=
  { Server := { Port := ":9999" }
    Logger := none
    DB := { Type_ := "mysql", Conn := "dsn", MaxIdleConn := 5, MaxOpenConn := 10,
            MaxLifeTime := 1, MaxIdleTime := 1, SlowQueryTime := 200, LogLevel := 1,
            LogColorful := true }
    Redis := redis }

/-- The descriptor of the specification's example: file a.txt with the bytes
hello and the auxiliary field k = v (its `Size` is left at a wrong value). -/
def exampleFile : CustomFileHeader :=
  { Filename := "a.txt", FileBytes := "hello", Size := 99, OtherFields := [("k", "v")] }

/-- A descriptor whose names hold the characters the writer escapes: a line
break in the file name, and a line feed, a double quote and a backslash in the
name of the auxiliary field. -/
def awkwardFile : CustomFileHeader :=
  { Filename := "a\r\nb.txt", FileBytes := "hello", Size := 0,
    OtherFields := [("k\n1\"2\\3", "v")] }

/-- The text `json.Marshal` gives for `exampleFile` passed by value: the fields
in declaration order, the bytes in base64. -/
def exampleFileJSON : String :=
  "\x7b\"Filename\":\"a.txt\",\"FileBytes\":\"aGVsbG8=\",\"Size\":99,"
    ++ "\"OtherFields\":\x7b\"k\":\"v\"\x7d\x7d"

/-- A mock of the libraries around one endpoint: payload values are their own
JSON text, nil is null, of the descriptors only `exampleFile` by value is
serialised, errors are their messages, a method with a blank in it is invalid,
the result container holds the text that was decoded into it, `http://down`
cannot be reached, every other URL answers `resp`, and the empty body does not
decode. -/
def exampleLib (resp : Response String) : HttpLib String String (Option String) :=
  { boundary := "B"
    Marshal := fun p =>
      match p with
      | .value v => .ok v
      | .nil => .ok "null"
      | .fileValue h => if h = exampleFile then .ok exampleFileJSON else .error "not mocked"
      | .filePtr _ => .error "not mocked"
    NewRequestErr := fun method _ =>
      if method.toList.any (fun c => c = Char.ofNat 32) then some "net/http: invalid method"
      else none
    Do := fun _ req => if req.URL = "http://down" then .error "connection refused" else .ok resp
    Unmarshal := fun body result =>
      if body = "" then (some "unexpected end of JSON input", result) else (none, some body) }

/-- The answer 500 with the body boom. -/
def resp500 : Response String :=
  { Status := "500 Internal Server Error", StatusCode := 500, Body := .ok "boom" }

/-- The answer 200 with a JSON body. -/
def resp200 : Response String :=
  { Status := "200 OK", StatusCode := 200, Body := .ok "[true]" }

/-! ### Lemmas on `GetEnv` -/

theorem assertType_of_hasType {F O : Type} (v d : GoVal F O) (T : GoType)
    (hk : v.kind = d.kind) (hd : d.kind ≠ none) (hT : d.hasType T = true) :
    assertType v T = some v := by
  cases T with
  | concrete k =>
    simp only [GoVal.hasType, decide_eq_true_eq] at hT
    simp [assertType, hk, hT]
  | iface impl =>
    cases hdk : d.kind with
    | none => exact absurd hdk hd
    | some k =>
      simp only [GoVal.hasType, hdk] at hT
      simp [assertType, hk, hdk, hT]

theorem GetEnv_empty {F O : Type} (sc : Strconv F) (env : Env) (T : GoType) (key : String)
    (d : GoVal F O) (h : Getenv env key = "") : GetEnv sc env T key d = some d := by
  simp [GetEnv, h]

theorem GetEnv_string {F O : Type} (sc : Strconv F) (env : Env) (T : GoType) (key s : String)
    (hT : (GoVal.string s : GoVal F O).hasType T = true) :
    GetEnv sc env T key (GoVal.string s : GoVal F O)
      = some (.string (envOr env key s)) := by
  unfold GetEnv envOr
  by_cases h : Getenv env key = ""
  · simp [h]
  · simp only [h, if_false]
    exact assertType_of_hasType _ (.string s) T rfl (by simp [GoVal.kind]) hT

theorem GetEnv_logLevel {F O : Type} (sc : Strconv F) (env : Env) (T : GoType) (key : String)
    (n : Int) : GetEnv sc env T key (GoVal.logLevel n : GoVal F O) = some (.logLevel n) := by
  unfold GetEnv
  by_cases h : Getenv env key = "" <;> simp [h]

/-- Closed form of `InitByEnv`: it always returns, and the new `Conf` is this record. -/
theorem InitByEnv_eq {F L R : Type} (sc : Strconv F) (DefaultLog : Env → L) (Info : Int)
    (env : Env) (Conf : Config L R) :
    InitByEnv sc DefaultLog Info env Conf = some
      { Server := { Port := envOr env "SERVER_PORT" ":3000" }
        Logger := some (DefaultLog env)
        DB := { Type_ := envOr env "DB_TYPE" "pg"
                Conn := envOr env "DB_CONN"
                  "host=127.0.0.1 port=5432 user=cella dbname=test password=111111"
                MaxIdleConn := 0, MaxOpenConn := 0, MaxLifeTime := 0, MaxIdleTime := 0
                SlowQueryTime := 0, LogLevel := Info, LogColorful := false }
        Redis := Conf.Redis } := by
  simp [InitByEnv, GetEnv_string, GetEnv_logLevel, GoVal.hasType, GoVal.kind, GoVal.asString,
    GoVal.asLogLevel]

theorem hasType_of_kind_eq {F O : Type} (v d : GoVal F O) (T : GoType)
    (hk : v.kind = d.kind) (hT : d.hasType T = true) : v.hasType T = true := by
  cases T <;> simpa [GoVal.hasType, hk] using hT

theorem GetEnv_typed {F O : Type} (sc : Strconv F) (env : Env) (T : GoType) (key : String)
    (d : GoVal F O) (hT : d.hasType T = true) :
    ∃ v, GetEnv sc env T key d = some v ∧ v.kind = d.kind := by
  unfold GetEnv
  by_cases h : Getenv env key = ""
  · exact ⟨d, by simp [h], rfl⟩
  · simp only [h, if_false]
    cases d with
    | string s =>
      exact ⟨_, assertType_of_hasType _ (.string s) T rfl (by simp [GoVal.kind]) hT, rfl⟩
    | int n =>
      cases hp : sc.Atoi (Getenv env key) with
      | none => exact ⟨_, rfl, rfl⟩
      | some v =>
        exact ⟨_, assertType_of_hasType _ (.int n) T rfl (by simp [GoVal.kind]) hT, rfl⟩
    | bool b =>
      cases hp : sc.ParseBool (Getenv env key) with
      | none => exact ⟨_, rfl, rfl⟩
      | some v =>
        exact ⟨_, assertType_of_hasType _ (.bool b) T rfl (by simp [GoVal.kind]) hT, rfl⟩
    | float64 x =>
      cases hp : sc.ParseFloat (Getenv env key) with
      | none => exact ⟨_, rfl, rfl⟩
      | some v =>
        exact ⟨_, assertType_of_hasType _ (.float64 x) T rfl (by simp [GoVal.kind]) hT, rfl⟩
    | logLevel n => exact ⟨_, rfl, rfl⟩
    | other name o => exact ⟨_, rfl, rfl⟩
    | nil => exact ⟨_, rfl, rfl⟩

theorem Getenv_absent_or_empty (env : Env) (key : String)
    (h : env key = none ∨ env key = some "") : Getenv env key = "" := by
  rcases h with h | h <;> simp [Getenv, h]

/-! ## The claims on config.go -/

/-- C1: `GetEnv` falls back to the default and never fails.  For every key and
every default value, an absent or empty variable makes `GetEnv` return exactly
the default; for a default of type int, bool or float64, a text that
`strconv.Atoi`, `strconv.ParseBool` or `strconv.ParseFloat` rejects makes it
return exactly the default; and a well-typed call always returns a value of
type `T`, so no type assertion panics. -/
theorem GetEnv_falls_back_to_default {F O : Type} (sc : Strconv F) (env : Env) (T : GoType)
    (key : String) (d : GoVal F O) :
    ((env key = none ∨ env key = some "") → GetEnv sc env T key d = some d) ∧
    (∀ n, d = .int n → sc.Atoi (Getenv env key) = none → GetEnv sc env T key d = some d) ∧
    (∀ b, d = .bool b → sc.ParseBool (Getenv env key) = none →
      GetEnv sc env T key d = some d) ∧
    (∀ x, d = .float64 x → sc.ParseFloat (Getenv env key) = none →
      GetEnv sc env T key d = some d) ∧
    (d.hasType T = true → ∃ v, GetEnv sc env T key d = some v ∧ v.hasType T = true) := by
  refine ⟨fun h => GetEnv_empty sc env T key d (Getenv_absent_or_empty env key h), ?_, ?_, ?_, ?_⟩
  · intro n hd hp
    subst hd
    unfold GetEnv
    by_cases h : Getenv env key = "" <;> simp [h, hp]
  · intro b hd hp
    subst hd
    unfold GetEnv
    by_cases h : Getenv env key = "" <;> simp [h, hp]
  · intro x hd hp
    subst hd
    unfold GetEnv
    by_cases h : Getenv env key = "" <;> simp [h, hp]
  · intro hT
    obtain ⟨v, hv, hk⟩ := GetEnv_typed sc env T key d hT
    exact ⟨v, hv, hasType_of_kind_eq v d T hk hT⟩

/-- Witness of C1 on `exampleEnv`: an unset variable, an empty one, and a text
that each of the three parsers rejects. -/
theorem GetEnv_falls_back_to_default_witness :
    GetEnv exampleStrconv exampleEnv (.concrete .string) "UNSET"
        (GoVal.string "dflt" : GoVal Int Unit) = some (.string "dflt") ∧
      GetEnv exampleStrconv exampleEnv (.concrete (.other "time.Duration")) "EMPTY"
        (GoVal.other "time.Duration" () : GoVal Int Unit) = some (.other "time.Duration" ()) ∧
      GetEnv exampleStrconv exampleEnv (.concrete .int) "JUNK"
        (GoVal.int 7 : GoVal Int Unit) = some (.int 7) ∧
      GetEnv exampleStrconv exampleEnv (.concrete .bool) "JUNK"
        (GoVal.bool true : GoVal Int Unit) = some (.bool true) ∧
      GetEnv exampleStrconv exampleEnv (.concrete .float64) "JUNK"
        (GoVal.float64 5 : GoVal Int Unit) = some (.float64 5) ∧
      ∃ v, GetEnv exampleStrconv exampleEnv (.iface fun _ => true) "WORKERS"
        (GoVal.int 7 : GoVal Int Unit) = some v ∧ v.hasType (.iface fun _ => true) = true :=
  ⟨(GetEnv_falls_back_to_default exampleStrconv exampleEnv _ "UNSET" _).1 (Or.inl (by decide)),
   (GetEnv_falls_back_to_default exampleStrconv exampleEnv _ "EMPTY" _).1 (Or.inr (by decide)),
   (GetEnv_falls_back_to_default exampleStrconv exampleEnv _ "JUNK" _).2.1 7 rfl (by decide),
   (GetEnv_falls_back_to_default exampleStrconv exampleEnv _ "JUNK" _).2.2.1 true rfl (by decide),
   (GetEnv_falls_back_to_default exampleStrconv exampleEnv _ "JUNK" _).2.2.2.1 5 rfl (by decide),
   (GetEnv_falls_back_to_default exampleStrconv exampleEnv _ "WORKERS" _).2.2.2.2 (by decide)⟩

/-- C2: for a non-empty, validly formatted variable `GetEnv` returns the parsed
value: the text itself, untrimmed, for a string default; the integer of
`strconv.Atoi` for an int default; the boolean of `strconv.ParseBool` for a bool
default; the result of `strconv.ParseFloat` for a float64 default.
`ParseBool` maps 1, t, true, TRUE to true and 0, f, false to false. -/
theorem GetEnv_returns_parsed_value {F O : Type} (sc : Strconv F) (env : Env) (T : GoType)
    (key : String) (d : GoVal F O) (hT : d.hasType T = true) (hne : Getenv env key ≠ "") :
    (∀ s, d = .string s → GetEnv sc env T key d = some (.string (Getenv env key))) ∧
    (∀ n v, d = .int n → sc.Atoi (Getenv env key) = some v →
      GetEnv sc env T key d = some (.int v)) ∧
    (∀ b v, d = .bool b → sc.ParseBool (Getenv env key) = some v →
      GetEnv sc env T key d = some (.bool v)) ∧
    (∀ x v, d = .float64 x → sc.ParseFloat (Getenv env key) = some v →
      GetEnv sc env T key d = some (.float64 v)) ∧
    (∀ s ∈ ["1", "t", "true", "TRUE"], ParseBool s = some true) ∧
    (∀ s ∈ ["0", "f", "false"], ParseBool s = some false) := by
  refine ⟨?_, ?_, ?_, ?_, by decide, by decide⟩
  · intro s hd
    subst hd
    simp only [GetEnv, hne, if_false]
    exact assertType_of_hasType _ (.string s) T rfl (by simp [GoVal.kind]) hT
  · intro n v hd hp
    subst hd
    simp only [GetEnv, hne, if_false, hp]
    exact assertType_of_hasType _ (.int n) T rfl (by simp [GoVal.kind]) hT
  · intro b v hd hp
    subst hd
    simp only [GetEnv, hne, if_false, hp]
    exact assertType_of_hasType _ (.bool b) T rfl (by simp [GoVal.kind]) hT
  · intro x v hd hp
    subst hd
    simp only [GetEnv, hne, if_false, hp]
    exact assertType_of_hasType _ (.float64 x) T rfl (by simp [GoVal.kind]) hT

/-- Witness of C2 on `exampleEnv`: a string with blanks around it, the integer
12, the boolean text TRUE and the number 3. -/
theorem GetEnv_returns_parsed_value_witness :
    GetEnv exampleStrconv exampleEnv (.concrete .string) "SERVER_PORT"
        (GoVal.string ":3000" : GoVal Int Unit) = some (.string " :8080 ") ∧
      GetEnv exampleStrconv exampleEnv (.concrete .int) "WORKERS"
        (GoVal.int 7 : GoVal Int Unit) = some (.int 12) ∧
      GetEnv exampleStrconv exampleEnv (.concrete .bool) "DEBUG"
        (GoVal.bool false : GoVal Int Unit) = some (.bool true) ∧
      GetEnv exampleStrconv exampleEnv (.concrete .float64) "RATE"
        (GoVal.float64 5 : GoVal Int Unit) = some (.float64 3) :=
  ⟨(GetEnv_returns_parsed_value exampleStrconv exampleEnv _ "SERVER_PORT" _ (by decide)
      (by decide)).1 ":3000" rfl,
   (GetEnv_returns_parsed_value exampleStrconv exampleEnv _ "WORKERS" _ (by decide)
      (by decide)).2.1 7 12 rfl (by decide),
   (GetEnv_returns_parsed_value exampleStrconv exampleEnv _ "DEBUG" _ (by decide)
      (by decide)).2.2.1 false true rfl (by decide),
   (GetEnv_returns_parsed_value exampleStrconv exampleEnv _ "RATE" _ (by decide)
      (by decide)).2.2.2.1 5 3 rfl (by decide)⟩

/-- C3, as the code behaves: `DB_LOG_LEVEL` never reaches `Conf.DB.LogLevel`.
The default `logger.Info` has the dynamic type `logger.LogLevel`, which none of
the cases string, int, bool, float64 of the type switch matches, so `GetEnv`
returns the default whatever the variable holds; on `exampleEnv`, where
`DB_LOG_LEVEL` is the valid integer 2, the level after `InitByEnv` is 4. -/
theorem InitByEnv_LogLevel_is_default :
    (∀ (sc : Strconv Int) (DefaultLog : Env → Unit) (Info : Int) (env : Env)
        (Conf : Config Unit String),
      (InitByEnv sc DefaultLog Info env Conf).map (fun c => c.DB.LogLevel) = some Info) ∧
    exampleEnv "DB_LOG_LEVEL" = some "2" ∧ Atoi "2" = some 2 ∧
    (InitByEnv exampleStrconv (fun _ => ()) logger.Info exampleEnv (exampleConf none)).map
      (fun c => c.DB.LogLevel) = some 4 := by
  refine ⟨fun sc DefaultLog Info env Conf => by simp [InitByEnv_eq], by decide, by decide, ?_⟩
  simp [InitByEnv_eq, logger.Info]

/-- C4: `InitByEnv` always returns, and afterwards `Conf.Server.Port` is the
value of `SERVER_PORT` if that is non-empty and ":3000" otherwise,
`Conf.DB.Type` is `DB_TYPE` if non-empty and "pg" otherwise, and `Conf.DB.Conn`
is `DB_CONN` if non-empty and the fixed local connection string otherwise. -/
theorem InitByEnv_string_settings {F L R : Type} (sc : Strconv F) (DefaultLog : Env → L)
    (Info : Int) (env : Env) (Conf : Config L R) :
    ∃ c, InitByEnv sc DefaultLog Info env Conf = some c ∧
      c.Server.Port =
        (if Getenv env "SERVER_PORT" ≠ "" then Getenv env "SERVER_PORT" else ":3000") ∧
      c.DB.Type_ = (if Getenv env "DB_TYPE" ≠ "" then Getenv env "DB_TYPE" else "pg") ∧
      c.DB.Conn =
        (if Getenv env "DB_CONN" ≠ "" then Getenv env "DB_CONN"
         else "host=127.0.0.1 port=5432 user=cella dbname=test password=111111") := by
  refine ⟨_, InitByEnv_eq sc DefaultLog Info env Conf, ?_, ?_, ?_⟩ <;>
    simp only [envOr, ne_eq, ite_not]

/-- C5: loading from the environment is idempotent and deterministic.  Under one
environment a second `InitByEnv` leaves `Conf` as the first one made it, and two
runs from prior values of `Conf` that agree on `Redis` return the same `Conf`. -/
theorem InitByEnv_idempotent {F L R : Type} (sc : Strconv F) (DefaultLog : Env → L)
    (Info : Int) (env : Env) (Conf Conf' : Config L R) :
    (∃ c, InitByEnv sc DefaultLog Info env Conf = some c ∧
      InitByEnv sc DefaultLog Info env c = some c) ∧
    (Conf.Redis = Conf'.Redis →
      InitByEnv sc DefaultLog Info env Conf = InitByEnv sc DefaultLog Info env Conf') := by
  refine ⟨⟨_, InitByEnv_eq sc DefaultLog Info env Conf, ?_⟩, fun h => ?_⟩
  · rw [InitByEnv_eq]
  · rw [InitByEnv_eq, InitByEnv_eq, h]

/-- Witness of C5: two different prior values of `Conf` with the same `Redis`
pointer give the same `Conf` under `exampleEnv`. -/
theorem InitByEnv_idempotent_witness :
    exampleConf (some "redis:6379") ≠
        { exampleConf (some "redis:6379") with Server := { Port := ":1" } } ∧
      InitByEnv exampleStrconv (fun _ => ()) logger.Info exampleEnv
          (exampleConf (some "redis:6379")) =
        InitByEnv exampleStrconv (fun _ => ()) logger.Info exampleEnv
          { exampleConf (some "redis:6379") with Server := { Port := ":1" } } :=
  ⟨by decide,
   (InitByEnv_idempotent exampleStrconv (fun _ => ()) logger.Info exampleEnv
      (exampleConf (some "redis:6379"))
      { exampleConf (some "redis:6379") with Server := { Port := ":1" } }).2 rfl⟩

/-! ## Lemmas on the multipart writer -/

theorem foldl_WriteField (fields : List (String × String)) (w : Writer)
    (hl : w.lastpart = true) :
    ((fields.foldl (fun w kv => w.WriteField kv.1 kv.2) w).Close).buf =
        w.buf ++ encodeRest w.boundary (fields.map fun kv => Part.field kv.1 kv.2) ∧
      (fields.foldl (fun w kv => w.WriteField kv.1 kv.2) w).boundary = w.boundary := by
  induction fields generalizing w with
  | nil => exact ⟨rfl, rfl⟩
  | cons kv fs ih =>
    have hstep := ih (w.WriteField kv.1 kv.2) rfl
    have hb : (w.WriteField kv.1 kv.2).boundary = w.boundary := rfl
    have hlit : "Content-Disposition" ++ ": " ++ "form-data; name=\""
        = "Content-Disposition: form-data; name=\"" := by decide
    refine ⟨?_, by simpa [hb] using hstep.2⟩
    simp only [List.foldl_cons, List.map_cons, hstep.1, hb]
    simp only [Writer.WriteField, Writer.CreatePart, Writer.Write, hl, if_true, encodeRest,
      Part.render, Part.field, List.map_cons, List.map_nil, String.join, List.foldl_cons,
      List.foldl_nil, String.empty_append, ← hlit, String.append_assoc]

/-- The file-upload body is the encoding of the file part followed by one text
field per auxiliary entry, and the content type carries the boundary. -/
theorem multipartBody_eq (boundary : String) (h : CustomFileHeader) :
    multipartBody boundary h =
      ((NewWriter boundary).FormDataContentType,
       encodeParts boundary
        (Part.file "file" h.Filename h.FileBytes ::
          h.OtherFields.map fun kv => Part.field kv.1 kv.2)) := by
  have hlit : "Content-Disposition" ++ ": " ++ "form-data; name=\""
      = "Content-Disposition: form-data; name=\"" := by decide
  have hlit2 : "\"" ++ "; filename=\"" = "\"; filename=\"" := by decide
  have hlit3 : "Content-Type" ++ ": " ++ "application/octet-stream"
      = "Content-Type: application/octet-stream" := by decide
  have hf := foldl_WriteField h.OtherFields
    (((NewWriter boundary).CreateFormFile "file" h.Filename).Write h.FileBytes) rfl
  simp only [multipartBody, Prod.mk.injEq]
  refine ⟨?_, ?_⟩
  · simp only [Writer.FormDataContentType, Writer.Close, hf.2]
    rfl
  · rw [hf.1]
    simp only [Writer.CreateFormFile, Writer.CreatePart, Writer.Write, NewWriter, encodeParts,
      Part.render, Part.file, List.map_cons, List.map_nil, String.join, List.foldl_cons,
      List.foldl_nil, String.empty_append, ← hlit, ← hlit2, ← hlit3, String.append_assoc,
      Bool.false_eq_true, if_false]

/-! ## The claims on util.go -/

/-- C6: when the request is sent and the response body is read, a status code
other than 200 makes `CallApi` return the error whose text is
"CoreServer error: ", the status line, a blank and the raw body, so the text
contains the status line and the body, and the result container is left as it
was. -/
theorem CallApi_non200_error {V E R : Type} (lib : HttpLib V E R) (api method : String)
    (timeout : Int) (bodyParams : Payload V) (result : R) (httpReq : Request)
    (resp : Response E) (body : String)
    (hreq : buildRequest lib api method bodyParams = .ok httpReq)
    (hdo : lib.Do timeout httpReq = .ok resp)
    (hbody : resp.Body = .ok body)
    (hcode : resp.StatusCode ≠ 200) :
    CallApi lib api method timeout bodyParams result =
        .returned (some (.errorf ("CoreServer error: " ++ resp.Status ++ " " ++ body))) result ∧
      resp.Status.data <:+: ("CoreServer error: " ++ resp.Status ++ " " ++ body).data ∧
      body.data <:+: ("CoreServer error: " ++ resp.Status ++ " " ++ body).data := by
  refine ⟨?_, ?_, ?_⟩
  · simp only [CallApi, hreq, hdo, hbody, hcode, ne_eq, not_false_eq_true, if_true]
  · exact ⟨"CoreServer error: ".data, " ".data ++ body.data, by simp [String.data_append]⟩
  · exact ⟨"CoreServer error: ".data ++ resp.Status.data ++ " ".data, [],
      by simp [String.data_append]⟩

/-- Witness of C6: the mock endpoint answers 500 with the body boom; the error
text holds 500 and boom and the container stays empty. -/
theorem CallApi_non200_error_witness :
    CallApi (exampleLib resp500) "http://core/api" "POST" 5 (.value "[1]") none =
        .returned (some (.errorf "CoreServer error: 500 Internal Server Error boom")) none ∧
      "500".data <:+: "CoreServer error: 500 Internal Server Error boom".data ∧
      "boom".data <:+: "CoreServer error: 500 Internal Server Error boom".data :=
  ⟨(CallApi_non200_error (exampleLib resp500) "http://core/api" "POST" 5 (.value "[1]") none
      { Method := "POST", URL := "http://core/api", Body := "[1]",
        Header := [("Content-Type", "application/json"), ("Accept", "application/json")] }
      resp500 "boom" rfl rfl rfl (by decide)).1,
   ⟨"CoreServer error: ".data, " Internal Server Error boom".data, by decide⟩,
   ⟨"CoreServer error: 500 Internal Server Error ".data, [], by decide⟩⟩

/-- C7: once the payload is serialised and the request constructed, `CallApi`
returns a nil error exactly when the transport call succeeds, the body is read,
the status code is 200 and the body decodes into the result container; a
transport failure is returned as the transport's own error value, and on a 200
response the decoding error is returned. -/
theorem CallApi_nil_iff_decoded_200 {V E R : Type} (lib : HttpLib V E R) (api method : String)
    (timeout : Int) (bodyParams : Payload V) (result : R) (httpReq : Request)
    (hreq : buildRequest lib api method bodyParams = .ok httpReq) :
    ((∃ r, CallApi lib api method timeout bodyParams result = .returned none r) ↔
      ∃ resp body, lib.Do timeout httpReq = .ok resp ∧ resp.Body = .ok body ∧
        resp.StatusCode = 200 ∧ (lib.Unmarshal body result).1 = none) ∧
    (∀ e, lib.Do timeout httpReq = .error e →
      CallApi lib api method timeout bodyParams result = .returned (some (.lib e)) result) ∧
    (∀ resp body e, lib.Do timeout httpReq = .ok resp → resp.Body = .ok body →
      resp.StatusCode = 200 → (lib.Unmarshal body result).1 = some e →
      CallApi lib api method timeout bodyParams result =
        .returned (some (.lib e)) (lib.Unmarshal body result).2) := by
  refine ⟨⟨?_, ?_⟩, ?_, ?_⟩
  · rintro ⟨r, hr⟩
    simp only [CallApi, hreq] at hr
    cases hdo : lib.Do timeout httpReq with
    | error e => simp [hdo] at hr
    | ok resp =>
      cases hbody : resp.Body with
      | error e => simp [hdo, hbody] at hr
      | ok body =>
        by_cases hcode : resp.StatusCode = 200
        · refine ⟨resp, body, rfl, hbody, hcode, ?_⟩
          rcases hu : lib.Unmarshal body result with ⟨_ | e, r2⟩
          · rfl
          · simp [hdo, hbody, hcode, hu] at hr
        · simp [hdo, hbody, hcode] at hr
  · rintro ⟨resp, body, hdo, hbody, hcode, hu⟩
    rcases hu2 : lib.Unmarshal body result with ⟨_ | e, r2⟩
    · exact ⟨r2, by simp [CallApi, hreq, hdo, hbody, hcode, hu2]⟩
    · simp [hu2] at hu
  · intro e hdo
    simp [CallApi, hreq, hdo]
  · intro resp body e hdo hbody hcode hu
    rcases hu2 : lib.Unmarshal body result with ⟨_ | e2, r2⟩
    · simp [hu2] at hu
    · simp only [hu2, Option.some.injEq] at hu
      simp [CallApi, hreq, hdo, hbody, hcode, hu2, hu]

/-- Witness of C7 on the mock: a 200 answer with a JSON body gives nil and the
decoded container, an unreachable host gives the transport's error. -/
theorem CallApi_nil_iff_decoded_200_witness :
    (∃ r, CallApi (exampleLib resp200) "http://core/api" "GET" 5 Payload.nil none =
        .returned none r) ∧
      CallApi (exampleLib resp200) "http://down" "GET" 5 Payload.nil none =
        .returned (some (.lib "connection refused")) none :=
  ⟨(CallApi_nil_iff_decoded_200 (exampleLib resp200) "http://core/api" "GET" 5 Payload.nil none
      { Method := "GET", URL := "http://core/api", Body := "null",
        Header := [("Content-Type", "application/json"), ("Accept", "application/json")] }
      rfl).1.2 ⟨resp200, "[true]", rfl, rfl, rfl, rfl⟩,
   (CallApi_nil_iff_decoded_200 (exampleLib resp200) "http://down" "GET" 5 Payload.nil none
      { Method := "GET", URL := "http://down", Body := "null",
        Header := [("Content-Type", "application/json"), ("Accept", "application/json")] }
      rfl).2.1 "connection refused" rfl⟩

theorem FormDataContentType_boundary (boundary : String) :
    (NewWriter boundary).FormDataContentType = "multipart/form-data; boundary=" ++ boundary ∨
      (NewWriter boundary).FormDataContentType =
        "multipart/form-data; boundary=" ++ ("\"" ++ boundary ++ "\"") := by
  simp only [Writer.FormDataContentType, NewWriter]
  split
  · exact Or.inr rfl
  · exact Or.inl rfl

theorem buildRequest_ok {V E R : Type} (lib : HttpLib V E R) (api method : String)
    (bodyParams : Payload V) (contentType requestBody : String)
    (hnew : lib.NewRequestErr (if method = "" then "GET" else method) api = none)
    (hprep : prepareBody lib bodyParams = .ok (contentType, requestBody)) :
    buildRequest lib api method bodyParams = .ok
      { Method := if method = "" then "GET" else method, URL := api, Body := requestBody,
        Header := [("Content-Type", contentType), ("Accept", "application/json")] } := by
  simp [buildRequest, NewRequest, hprep, hnew, Header.Set]

/-- A nil pointer of type `*CustomFileHeader` passes the type assertion of line
51 and is dereferenced at line 57: the call panics before any request exists. -/
theorem CallApi_nil_filePtr {V E R : Type} (lib : HttpLib V E R) (api method : String)
    (timeout : Int) (result : R) :
    CallApi lib api method timeout (.filePtr none) result = .panic := by
  simp [CallApi, buildRequest, prepareBody]

/-- C8, amended: `CallApi` chooses the encoding by the kind of the payload.
When `http.NewRequest` accepts the method and the endpoint, a non-nil pointer to
a file-upload descriptor gives the content type multipart/form-data with the
writer's boundary and the multipart encoding as body; every payload that is not
a `*CustomFileHeader` and that serialises (a descriptor passed by value and nil
among them) gives its JSON text as body and the content type application/json;
in both cases Accept is application/json, the endpoint is the one given and
the method is the one given, GET standing for the empty method. -/
theorem buildRequest_encoding {V E R : Type} (lib : HttpLib V E R) (api method : String)
    (hnew : lib.NewRequestErr (if method = "" then "GET" else method) api = none) :
    (∀ fileHeader : CustomFileHeader, ∃ req,
      buildRequest lib api method (.filePtr (some fileHeader)) = .ok req ∧
      req.Method = (if method = "" then "GET" else method) ∧ req.URL = api ∧
      req.Header.Get "Content-Type" = (NewWriter lib.boundary).FormDataContentType ∧
      (req.Header.Get "Content-Type" = "multipart/form-data; boundary=" ++ lib.boundary ∨
        req.Header.Get "Content-Type" =
          "multipart/form-data; boundary=" ++ ("\"" ++ lib.boundary ++ "\"")) ∧
      req.Body = encodeParts lib.boundary
        (Part.file "file" fileHeader.Filename fileHeader.FileBytes ::
          fileHeader.OtherFields.map fun kv => Part.field kv.1 kv.2) ∧
      req.Header.Get "Accept" = "application/json") ∧
    (∀ (p : Payload V) (body : String), (∀ q, p ≠ .filePtr q) → lib.Marshal p = .ok body →
      ∃ req, buildRequest lib api method p = .ok req ∧
        req.Method = (if method = "" then "GET" else method) ∧ req.URL = api ∧
        req.Header.Get "Content-Type" = "application/json" ∧
        req.Body = body ∧
        req.Header.Get "Accept" = "application/json") := by
  refine ⟨fun fileHeader => ?_, fun p body hp hm => ?_⟩
  · have hprep : prepareBody lib (.filePtr (some fileHeader)) = .ok
        ((NewWriter lib.boundary).FormDataContentType,
         encodeParts lib.boundary
          (Part.file "file" fileHeader.Filename fileHeader.FileBytes ::
            fileHeader.OtherFields.map fun kv => Part.field kv.1 kv.2)) := by
      simp [prepareBody, multipartBody_eq]
    have hct : Header.Get [("Content-Type", (NewWriter lib.boundary).FormDataContentType),
        ("Accept", "application/json")] "Content-Type"
          = (NewWriter lib.boundary).FormDataContentType := by
      simp [Header.Get, List.lookup]
    refine ⟨_, buildRequest_ok lib api method _ _ _ hnew hprep, rfl, rfl, hct, ?_, rfl, ?_⟩
    · simp only [hct]
      exact FormDataContentType_boundary lib.boundary
    · simp [Header.Get, List.lookup]
  · have hprep : prepareBody lib p = .ok ("application/json", body) := by
      cases p with
      | filePtr q => exact absurd rfl (hp q)
      | fileValue h => simp [prepareBody, hm]
      | nil => simp [prepareBody, hm]
      | value v => simp [prepareBody, hm]
    refine ⟨_, buildRequest_ok lib api method _ _ _ hnew hprep, rfl, rfl, ?_, rfl, ?_⟩
    · simp [Header.Get, List.lookup]
    · simp [Header.Get, List.lookup]

/-- Witness of C8 on the mock: the example descriptor passed by pointer is sent
as multipart under the boundary B by POST; passed by value its JSON text is the
body; nil sent with the empty method goes out as null by GET; and the body for
`awkwardFile` has its names escaped. -/
theorem buildRequest_encoding_witness :
    (∃ req, buildRequest (exampleLib resp200) "http://core/upload" "POST"
        (.filePtr (some exampleFile)) = .ok req ∧
      req.Method = "POST" ∧ req.URL = "http://core/upload" ∧
      req.Header.Get "Content-Type" = "multipart/form-data; boundary=B" ∧
      req.Header.Get "Accept" = "application/json") ∧
    (∃ req, buildRequest (exampleLib resp200) "http://core/upload" "POST"
        (.fileValue exampleFile) = .ok req ∧
      req.Header.Get "Content-Type" = "application/json" ∧ req.Body = exampleFileJSON) ∧
    (∃ req, buildRequest (exampleLib resp200) "http://core/upload" "" .nil = .ok req ∧
      req.Method = "GET" ∧
      req.Header.Get "Content-Type" = "application/json" ∧ req.Body = "null") ∧
    (∃ req, buildRequest (exampleLib resp200) "http://core/upload" "POST"
        (.filePtr (some awkwardFile)) = .ok req ∧
      req.Body =
        "--B\r\nContent-Disposition: form-data; name=\"file\"; filename=\"a%0D%0Ab.txt\"\r\n"
          ++ "Content-Type: application/octet-stream\r\n\r\nhello"
          ++ "\r\n--B\r\nContent-Disposition: form-data; name=\"k%0A1\\\"2\\\\3\"\r\n\r\nv"
          ++ "\r\n--B--\r\n") := by
  have h := buildRequest_encoding (exampleLib resp200) "http://core/upload" "POST" (by decide)
  have h0 := buildRequest_encoding (exampleLib resp200) "http://core/upload" "" (by decide)
  obtain ⟨req, h1, h2, h3, h4, -, -, h7⟩ := h.1 exampleFile
  obtain ⟨req4, m1, -, -, -, -, m6, -⟩ := h.1 awkwardFile
  obtain ⟨req2, g1, -, -, g4, g5, -⟩ :=
    h.2 (.fileValue exampleFile) exampleFileJSON (fun q hq => by cases hq) rfl
  obtain ⟨req3, k1, k2, -, k4, k5, -⟩ := h0.2 .nil "null" (fun q hq => by cases hq) rfl
  exact ⟨⟨req, h1, h2, h3, h4.trans (by decide), h7⟩, ⟨req2, g1, g4, g5⟩,
    ⟨req3, k1, k2, k4, k5⟩, ⟨req4, m1, m6.trans rfl⟩⟩

/-- C8 as stated fails at two inputs.  The nil pointer of type
`*CustomFileHeader` is a payload of the file-upload kind, yet `CallApi` panics
on it and no request, multipart or other, comes to exist; and with the empty
method the request made carries GET, not the method given. -/
theorem buildRequest_encoding_counterexample :
    CallApi (exampleLib resp200) "http://core/upload" "POST" 5 (.filePtr none) none = .panic ∧
    (¬ ∃ req, buildRequest (exampleLib resp200) "http://core/upload" "POST"
        (.filePtr none) = .ok req) ∧
    (∃ req, buildRequest (exampleLib resp200) "http://core/upload" "" .nil = .ok req ∧
      req.Method = "GET" ∧ req.Method ≠ "") := by
  refine ⟨rfl, ?_, ⟨_, rfl, rfl, by decide⟩⟩
  rintro ⟨req, hreq⟩
  have hp : buildRequest (exampleLib resp200) "http://core/upload" "POST"
      (.filePtr none) = .panic := rfl
  rw [hp] at hreq
  cases hreq

/-- C9: for a file-upload descriptor with filename f, bytes b and auxiliary
fields m, the body `CallApi` builds is the multipart encoding of the file part
named file with filename f and content b, placed first, followed by one text
field part per entry of m in iteration order, len(m) of them, and nothing else;
the `Size` field plays no role.  For a.txt, hello and the field k = v the body
is the one written out below; the second body shows the names of `awkwardFile`
as the writer escapes them. -/
theorem prepareBody_multipart_parts {V E R : Type} (lib : HttpLib V E R)
    (fileHeader : CustomFileHeader) :
    prepareBody lib (.filePtr (some fileHeader)) = .ok
        ((NewWriter lib.boundary).FormDataContentType,
         encodeParts lib.boundary
          (Part.file "file" fileHeader.Filename fileHeader.FileBytes ::
            fileHeader.OtherFields.map fun kv => Part.field kv.1 kv.2)) ∧
      (fileHeader.OtherFields.map fun kv => Part.field kv.1 kv.2).length
        = fileHeader.OtherFields.length ∧
      (∀ size : Int, prepareBody lib (.filePtr (some { fileHeader with Size := size }))
        = prepareBody lib (.filePtr (some fileHeader))) ∧
      [Part.file "file" exampleFile.Filename exampleFile.FileBytes, Part.field "k" "v"]
        = (Part.file "file" exampleFile.Filename exampleFile.FileBytes ::
            exampleFile.OtherFields.map fun kv => Part.field kv.1 kv.2) ∧
      (multipartBody "B" exampleFile).2 =
        "--B\r\nContent-Disposition: form-data; name=\"file\"; filename=\"a.txt\"\r\n"
          ++ "Content-Type: application/octet-stream\r\n\r\nhello"
          ++ "\r\n--B\r\nContent-Disposition: form-data; name=\"k\"\r\n\r\nv"
          ++ "\r\n--B--\r\n" ∧
      (multipartBody "B" awkwardFile).2 =
        "--B\r\nContent-Disposition: form-data; name=\"file\"; filename=\"a%0D%0Ab.txt\"\r\n"
          ++ "Content-Type: application/octet-stream\r\n\r\nhello"
          ++ "\r\n--B\r\nContent-Disposition: form-data; name=\"k%0A1\\\"2\\\\3\"\r\n\r\nv"
          ++ "\r\n--B--\r\n" := by
  refine ⟨by simp [prepareBody, multipartBody_eq], by simp, fun size => ?_, rfl, rfl, rfl⟩
  simp [prepareBody, multipartBody_eq]

end Webkit
